import Mathlib

/-!
Shallow embedding of `src/main.py` (a single-process library catalog manager).

Python dicts preserve insertion order, so `books`, `users` and each user's
`borrowed` map are modelled as association lists: insertion appends at the
end, updating an existing key keeps its position, deletion removes the pair.

Dates: `datetime.utcnow().date()` is modelled as a day count (`Nat`, days
since 0000-03-01 in the proleptic Gregorian calendar); `+ timedelta(days=14)`
is `+ 14` on the day count; `.isoformat()` is `isoOfDays` below, the exact
civil-from-days conversion with zero padding; `datetime.fromisoformat(s).date()`
(with the `strptime("%Y-%m-%d")` fallback) is `parseIsoDays`.  The full
timestamp `datetime.utcnow().isoformat()` recorded on transactions is passed
to the operations as an opaque string parameter `ts`.
-/

namespace LibraryManager

/-- Gregorian leap-year test. -/
def isLeap (y : Nat) : Bool :=
  (y % 4 == 0 && y % 100 != 0) || y % 400 == 0

/-- Number of days in month `m` of year `y` (months are 1-based). -/
def daysInMonth (y m : Nat) : Nat :=
  if m == 2 then (if isLeap y then 29 else 28)
  else if m == 4 || m == 6 || m == 9 || m == 11 then 30
  else 31

/-- Day count of the civil date `(y, m, d)`: days since 0000-03-01 of the
proleptic Gregorian calendar (valid for `y ≥ 1`). -/
def daysFromCivil (y m d : Nat) : Nat :=
  let yAdj := if m ≤ 2 then y - 1 else y
  let era := yAdj / 400
  let yoe := yAdj % 400
  let mp := if m > 2 then m - 3 else m + 9
  let doy := (153 * mp + 2) / 5 + d - 1
  let doe := yoe * 365 + yoe / 4 - yoe / 100 + doy
  era * 146097 + doe

/-- Civil date `(y, m, d)` of a day count (inverse of `daysFromCivil`). -/
def civilFromDays (n : Nat) : Nat × Nat × Nat :=
  let era := n / 146097
  let doe := n % 146097
  let yoe := (doe - doe / 1460 + doe / 36524 - doe / 146096) / 365
  let y := yoe + era * 400
  let doy := doe - (365 * yoe + yoe / 4 - yoe / 100)
  let mp := (5 * doy + 2) / 153
  let d := doy - (153 * mp + 2) / 5 + 1
  let m := if mp < 10 then mp + 3 else mp - 9
  (if m ≤ 2 then y + 1 else y, m, d)

/-- Decimal digits of `n`, zero-padded on the left to width `w`. -/
def padNat (w n : Nat) : String :=
  let s := Nat.repr n
  if s.length < w then String.mk (List.replicate (w - s.length) '0') ++ s else s

/-- ISO `YYYY-MM-DD` rendering of a day count (`date.isoformat()`). -/
def isoOfDays (n : Nat) : String :=
  let c := civilFromDays n
  padNat 4 c.1 ++ "-" ++ padNat 2 c.2.1 ++ "-" ++ padNat 2 c.2.2

/-- Split a character list into the chunks between `-` separators
(accumulator-style; `cur` holds the current chunk reversed). -/
def splitDash : List Char → List Char → List (List Char)
  | [], cur => [cur.reverse]
  | c :: rest, cur =>
      if c = '-' then cur.reverse :: splitDash rest []
      else splitDash rest (c :: cur)

/-- Parse a non-empty all-digit character list as a decimal number. -/
def digitsToNat (cs : List Char) : Option Nat :=
  if cs.isEmpty then none
  else
    cs.foldl
      (fun acc c =>
        match acc with
        | none => none
        | some n => if c.isDigit then some (n * 10 + (c.toNat - 48)) else none)
      (some 0)

/-- Parse an ISO `YYYY-MM-DD` string to a day count, validating ranges the
way `datetime` does (year 1–9999, month 1–12, day within the month).
Returns `none` where the Python parse raises. -/
def parseIsoDays (s : String) : Option Nat :=
  match (splitDash s.data []).map digitsToNat with
  | [some y, some m, some d] =>
      if 1 ≤ y && y ≤ 9999 && 1 ≤ m && m ≤ 12 && 1 ≤ d && d ≤ daysInMonth y m then
        some (daysFromCivil y m d)
      else
        none
  | _ => none

/-! Insertion-ordered dictionaries (Python `dict`) as association lists. -/

/-- `d[k]` lookup: the value stored under `k` (keys are unique in a Python
dict; on the association list, the first occurrence). -/
def dictFind : List (String × α) → String → Option α
  | [], _ => none
  | p :: rest, k => if p.1 == k then some p.2 else dictFind rest k

/-- `k in d`. -/
def dictContains : List (String × α) → String → Bool
  | [], _ => false
  | p :: rest, k => p.1 == k || dictContains rest k

/-- `d[k] = v`: updates the value in place if `k` is present (keeping its
position, as Python dicts do), otherwise appends the new pair at the end. -/
def dictSet : List (String × α) → String → α → List (String × α)
  | [], k, v => [(k, v)]
  | p :: rest, k, v => if p.1 == k then (k, v) :: rest else p :: dictSet rest k v

/-- `del d[k]`. -/
def dictErase : List (String × α) → String → List (String × α)
  | [], _ => []
  | p :: rest, k => if p.1 == k then dictErase rest k else p :: dictErase rest k

/-! The data model of `main.py`. -/

/-- `class Book` (`main.py` lines 12–33). -/
structure Book where
  title : String
  author : String
  genre : String
  quantity : Int
  issued_count : Int
  deriving Repr, DecidableEq

/-- `class User` (`main.py` lines 35–55); `borrowed` maps title → due date. -/
structure User where
  id : String
  name : String
  contact : String
  borrowed : List (String × String)
  deriving Repr, DecidableEq

/-- `class Transaction` (`main.py` lines 57–70). -/
structure Transaction where
  user_id : String
  book_title : String
  action : String
  date : String
  deriving Repr, DecidableEq

/-- `class Library` state (`main.py` lines 72–76). -/
structure Library where
  books : List (String × Book)
  users : List (String × User)
  transactions : List Transaction
  deriving Repr, DecidableEq

/-- `Library.__init__`: empty collections. -/
def emptyLibrary : Library := ⟨[], [], []⟩

/-- `Library.add_book` (lines 78–82).  Returns only the new state (the
Python method returns `None` and cannot fail). -/
def add_book (lib : Library) (title author genre : String) (quantity : Int) :
    Library :=
  match dictFind lib.books title with
  | some b =>
      { lib with books := dictSet lib.books title { b with quantity := b.quantity + quantity } }
  | none =>
      { lib with books := dictSet lib.books title ⟨title, author, genre, quantity, 0⟩ }

/-- `Library.remove_book` (lines 84–88). -/
def remove_book (lib : Library) (title : String) : Library × Bool :=
  if dictContains lib.books title then
    ({ lib with books := dictErase lib.books title }, true)
  else
    (lib, false)

/-- `Library.add_user` (lines 90–93).  The generated `uuid4` id is passed in
as the parameter `uid`. -/
def add_user (lib : Library) (uid name contact : String) : Library × String :=
  let u : User := ⟨uid, name, contact, []⟩
  ({ lib with users := dictSet lib.users uid u }, uid)

/-- `Library.remove_user` (lines 95–99). -/
def remove_user (lib : Library) (user_id : String) : Library × Bool :=
  if dictContains lib.users user_id then
    ({ lib with users := dictErase lib.users user_id }, true)
  else
    (lib, false)

/-- `Library.issue_book` (lines 101–117).  `now` is `utcnow().date()` as a
day count; `ts` is the `utcnow().isoformat()` timestamp stored on the
transaction.  Returns the new state with the `(ok, message)` pair. -/
def issue_book (lib : Library) (user_id title : String) (now : Nat)
    (ts : String) : Library × Bool × String :=
  match dictFind lib.users user_id with
  | none => (lib, false, "User not found")
  | some user =>
    match dictFind lib.books title with
    | none => (lib, false, "Book not found")
    | some book =>
      if book.quantity ≤ 0 then
        (lib, false, "No copies available")
      else
        let due := isoOfDays (now + 14)
        let user' := { user with borrowed := dictSet user.borrowed title due }
        let book' := { book with quantity := book.quantity - 1,
                                 issued_count := book.issued_count + 1 }
        let t : Transaction := ⟨user_id, title, "issue", ts⟩
        ({ books := dictSet lib.books title book',
           users := dictSet lib.users user_id user',
           transactions := lib.transactions ++ [t] },
         true, "Issued. Due: " ++ due)

/-- `Library.return_book` (lines 119–133). -/
def return_book (lib : Library) (user_id title : String) (ts : String) :
    Library × Bool × String :=
  match dictFind lib.users user_id with
  | none => (lib, false, "User not found")
  | some user =>
    if dictContains user.borrowed title then
      let user' := { user with borrowed := dictErase user.borrowed title }
      let books' :=
        match dictFind lib.books title with
        | some b => dictSet lib.books title { b with quantity := b.quantity + 1 }
        | none => dictSet lib.books title ⟨title, "Unknown", "Unknown", 1, 0⟩
      let t : Transaction := ⟨user_id, title, "return", ts⟩
      ({ books := books',
         users := dictSet lib.users user_id user',
         transactions := lib.transactions ++ [t] },
       true, "Returned")
    else
      (lib, false, "User did not borrow this book")

/-! Report generation (`Library.generate_report`, lines 135–155). -/

/-- One element of the report's `overdue` list (line 153). -/
structure OverdueEntry where
  user_id : String
  name : String
  book : String
  due : String
  deriving Repr, DecidableEq

/-- The report dictionary built by `generate_report`. -/
structure Report where
  total_books : Int
  unique_titles : Nat
  total_users : Nat
  popular : List Book
  overdue : List OverdueEntry
  deriving Repr, DecidableEq

/-- Stable insert for a descending sort on `issued_count`: the new element
(which precedes `l`'s elements in the original order) goes before the first
element whose count is not larger. -/
def insertPop (b : Book) : List Book → List Book
  | [] => [b]
  | c :: rest =>
      if c.issued_count ≤ b.issued_count then b :: c :: rest
      else c :: insertPop b rest

/-- `sorted(books.values(), key=lambda b: b.issued_count, reverse=True)`:
Python's `sorted` is stable, modelled by a stable insertion sort. -/
def sortPop : List Book → List Book
  | [] => []
  | b :: rest => insertPop b (sortPop rest)

/-- The inner loop of lines 147–153 for one user: walk the `borrowed` items
in order, parse each due date, keep those strictly before `today`.  A parse
failure raises in Python and aborts the whole report, hence `Option`. -/
def userOverdue (today : Nat) (u : User) :
    List (String × String) → Option (List OverdueEntry)
  | [] => some []
  | (title, due) :: rest =>
      match parseIsoDays due, userOverdue today u rest with
      | some dueDate, some l =>
          some (if dueDate < today then ⟨u.id, u.name, title, due⟩ :: l else l)
      | _, _ => none

/-- The user loop of lines 146–153. -/
def allOverdue (today : Nat) : List (String × User) → Option (List OverdueEntry)
  | [] => some []
  | (_, u) :: rest =>
      match userOverdue today u u.borrowed, allOverdue today rest with
      | some l₁, some l₂ => some (l₁ ++ l₂)
      | _, _ => none

/-- `Library.generate_report` (lines 135–155): `today` is `utcnow().date()`
as a day count.  Returns `none` when a stored due date fails to parse (the
Python code raises there). -/
def generate_report (lib : Library) (today : Nat) : Option Report :=
  match allOverdue today lib.users with
  | none => none
  | some ov =>
      some { total_books := (lib.books.map (fun p => p.2.quantity)).sum,
             unique_titles := lib.books.length,
             total_users := lib.users.length,
             popular := (sortPop (lib.books.map (fun p => p.2))).take 10,
             overdue := ov }

/-! Persistence (`save_to_file` lines 157–165, `load_from_file` 167–176).
The JSON document is modelled structurally; the file system is an
`Option SavedData` (`none` = the file does not exist). -/

/-- `Book.to_dict` output (lines 20–27). -/
structure BookDict where
  title : String
  author : String
  genre : String
  quantity : Int
  issued_count : Int
  deriving Repr, DecidableEq

/-- `User.to_dict` output (lines 42–48). -/
structure UserDict where
  id : String
  name : String
  contact : String
  borrowed : List (String × String)
  deriving Repr, DecidableEq

/-- `Transaction.to_dict` output (lines 64–65). -/
structure TransactionDict where
  user_id : String
  book_title : String
  action : String
  date : String
  deriving Repr, DecidableEq

def bookToDict (b : Book) : BookDict :=
  ⟨b.title, b.author, b.genre, b.quantity, b.issued_count⟩

/-- `Book.from_dict` (lines 29–33): the constructor sets `issued_count = 0`,
then it is overwritten from the dict. -/
def bookFromDict (d : BookDict) : Book :=
  ⟨d.title, d.author, d.genre, d.quantity, d.issued_count⟩

def userToDict (u : User) : UserDict :=
  ⟨u.id, u.name, u.contact, u.borrowed⟩

/-- `User.from_dict` (lines 50–55): the fresh uuid from the constructor is
overwritten by `d["id"]`. -/
def userFromDict (d : UserDict) : User :=
  ⟨d.id, d.name, d.contact, d.borrowed⟩

def transactionToDict (t : Transaction) : TransactionDict :=
  ⟨t.user_id, t.book_title, t.action, t.date⟩

/-- `Transaction.from_dict` (lines 67–70) goes through the constructor,
whose `date or datetime.utcnow().isoformat()` (line 62) replaces a falsy
date — the empty string — with the current timestamp `ts`. -/
def transactionFromDict (ts : String) (d : TransactionDict) : Transaction :=
  ⟨d.user_id, d.book_title, d.action, if d.date = "" then ts else d.date⟩

/-- The JSON document written by `save_to_file` (lines 158–162). -/
structure SavedData where
  books : List (String × BookDict)
  users : List (String × UserDict)
  transactions : List TransactionDict
  deriving Repr, DecidableEq

/-- `Library.save_to_file` (lines 157–165): serializes the full state;
`json.dump` preserves dict insertion order and list order. -/
def save_to_file (lib : Library) : SavedData :=
  { books := lib.books.map (fun p => (p.1, bookToDict p.2)),
    users := lib.users.map (fun p => (p.1, userToDict p.2)),
    transactions := lib.transactions.map transactionToDict }

/-- `Library.load_from_file` (lines 167–176): a missing file
(`FileNotFoundError`) returns `false` and leaves the state untouched;
otherwise the in-memory state is fully replaced.  `ts` is the current
timestamp `datetime.utcnow().isoformat()` used by the `Transaction`
constructor for falsy dates. -/
def load_from_file (lib : Library) (file : Option SavedData) (ts : String) :
    Library × Bool :=
  match file with
  | none => (lib, false)
  | some data =>
      ({ books := data.books.map (fun p => (p.1, bookFromDict p.2)),
         users := data.users.map (fun p => (p.1, userFromDict p.2)),
         transactions := data.transactions.map (transactionFromDict ts) },
       true)

/-! Reachable states: the mutating operations as a small command language. -/

/-- One call to a mutating `Library` method, with the ambient inputs (the
generated uuid, the current date and the current timestamp) made explicit. -/
inductive Op where
  | addBook (title author genre : String) (quantity : Int)
  | removeBook (title : String)
  | addUser (uid name contact : String)
  | removeUser (uid : String)
  | issueBook (uid title : String) (now : Nat) (ts : String)
  | returnBook (uid title : String) (ts : String)
  deriving Repr, DecidableEq

/-- Apply one operation, keeping only the state. -/
def applyOp (lib : Library) : Op → Library
  | .addBook title author genre q => add_book lib title author genre q
  | .removeBook title => (remove_book lib title).1
  | .addUser uid name contact => (add_user lib uid name contact).1
  | .removeUser uid => (remove_user lib uid).1
  | .issueBook uid title now ts => (issue_book lib uid title now ts).1
  | .returnBook uid title ts => (return_book lib uid title ts).1

/-- `Op`s whose `addBook` quantity is non-negative. -/
def opQuantityNN : Op → Prop
  | .addBook _ _ _ q => 0 ≤ q
  | _ => True

/-- States reachable from the empty store by the six mutating operations,
each `addBook` supplying a non-negative quantity. -/
inductive ReachNN : Library → Prop
  | empty : ReachNN emptyLibrary
  | step {lib : Library} (op : Op) (hq : opQuantityNN op) (h : ReachNN lib) :
      ReachNN (applyOp lib op)

/-- States reachable from the empty store by the six mutating operations and
by loading a file previously produced by `save_to_file` on a reachable
state. -/
inductive Reach : Library → Prop
  | empty : Reach emptyLibrary
  | step {lib : Library} (op : Op) (h : Reach lib) : Reach (applyOp lib op)
  | load {lib lib₂ : Library} (ts : String) (h : Reach lib) (h₂ : Reach lib₂) :
      Reach (load_from_file lib (some (save_to_file lib₂)) ts).1

/-- Invariant of C5: every catalog record's quantity is non-negative. -/
def booksNonNeg (lib : Library) : Prop :=
  ∀ p ∈ lib.books, (0 : Int) ≤ p.2.quantity

/-- Invariant of C10: `books` maps each key to a record whose `title` equals
that key, and `users` maps each key to a record whose `id` equals it. -/
def keyCoherent (lib : Library) : Prop :=
  (∀ p ∈ lib.books, p.2.title = p.1) ∧ (∀ p ∈ lib.users, p.2.id = p.1)

/-- Descending popularity order: `a` may come before `b` when `b`'s
`issued_count` does not exceed `a`'s. -/
def popGE (a b : Book) : Prop :=
  b.issued_count ≤ a.issued_count

/-- Sample store: one registered user, no books. -/
def sampleUserLib : Library := (add_user emptyLibrary "u1" "Ann" "ann@mail").1

/-- Sample store: one user and one copy of "Dune". -/
def sampleLib : Library := add_book sampleUserLib "Dune" "Frank Herbert" "SF" 1

/-- Sample store: one user and a "Dune" record with zero copies. -/
def sampleLibZero : Library := add_book sampleUserLib "Dune" "Frank Herbert" "SF" 0

/-- Sample store with an outstanding loan of "Dune" and a second borrowed
title, and a non-empty transaction log. -/
def sampleBorrowedLib : Library :=
  ⟨[("Dune", ⟨"Dune", "Frank Herbert", "SF", 0, 1⟩)],
   [("u1", ⟨"u1", "Ann", "ann@mail", [("Dune", "2026-10-01"), ("Emma", "2026-10-20")]⟩)],
   [⟨"u1", "Dune", "issue", "2026-09-17T12:00:00"⟩]⟩

/-- A store whose only transaction carries an empty date string. -/
def libEmptyDate : Library := ⟨[], [], [⟨"u1", "Dune", "issue", ""⟩]⟩

/-- Sample catalog of twelve books with assorted issue counts and no users. -/
def twelveBookLib : Library :=
  ⟨(List.range 12).map fun i =>
      (Nat.repr i, ⟨Nat.repr i, "Author", "Genre", 1, Int.ofNat (i % 3)⟩),
   [], []⟩

/-- The spec's description of the report's `overdue` list, for comparison
with the implementation in C6: every `(user, title, due)` pair in every
user's `borrowed` map whose due date is strictly before today, as a record
`{user_id, name, book, due}`, in iteration order over users and then over
that user's borrowed entries. -/
def overdueSpec (lib : Library) (today : Nat) : List OverdueEntry :=
  lib.users.flatMap fun p =>
    (p.2.borrowed.filter fun e =>
        match parseIsoDays e.2 with
        | some dueDate => decide (dueDate < today)
        | none => false).map
      fun e => ⟨p.2.id, p.2.name, e.1, e.2⟩

/-! Basic lemmas about the ordered-dictionary model. -/

theorem dictFind_dictSet_self (d : List (String × α)) (k : String) (v : α) :
    dictFind (dictSet d k v) k = some v := by
  induction d with
  | nil => simp [dictSet, dictFind]
  | cons p rest ih =>
      by_cases h : p.1 = k
      · simp [dictSet, dictFind, h]
      · simp [dictSet, dictFind, h, ih]

theorem dictFind_dictSet_ne (d : List (String × α)) (k k' : String) (v : α)
    (h : k' ≠ k) : dictFind (dictSet d k v) k' = dictFind d k' := by
  have h' : ¬ k = k' := fun hh => h hh.symm
  induction d with
  | nil => simp [dictSet, dictFind, h']
  | cons p rest ih =>
      by_cases hp : p.1 = k
      · have hp' : ¬ p.1 = k' := by rw [hp]; exact h'
        simp [dictSet, dictFind, hp, hp', h']
      · by_cases hp' : p.1 = k'
        · simp [dictSet, dictFind, hp, hp', h]
        · simp [dictSet, dictFind, hp, hp', ih]

theorem dictFind_dictErase_self (d : List (String × α)) (k : String) :
    dictFind (dictErase d k) k = none := by
  induction d with
  | nil => simp [dictErase, dictFind]
  | cons p rest ih =>
      by_cases h : p.1 = k
      · simp [dictErase, h, ih]
      · simp [dictErase, dictFind, h, ih]

theorem dictFind_dictErase_ne (d : List (String × α)) (k k' : String)
    (h : k' ≠ k) : dictFind (dictErase d k) k' = dictFind d k' := by
  have h' : ¬ k = k' := fun hh => h hh.symm
  induction d with
  | nil => simp [dictErase]
  | cons p rest ih =>
      by_cases hp : p.1 = k
      · have hp' : ¬ p.1 = k' := by rw [hp]; exact h'
        simp [dictErase, dictFind, hp, hp', h', ih]
      · simp [dictErase, dictFind, hp, ih]

theorem dictContains_eq_isSome (d : List (String × α)) (k : String) :
    dictContains d k = (dictFind d k).isSome := by
  induction d with
  | nil => simp [dictContains, dictFind]
  | cons p rest ih =>
      by_cases h : p.1 = k
      · simp [dictContains, dictFind, h]
      · simp [dictContains, dictFind, h, ih]

theorem mem_dictSet (d : List (String × α)) (k : String) (v : α) (p : String × α)
    (h : p ∈ dictSet d k v) : p = (k, v) ∨ p ∈ d := by
  induction d with
  | nil => simpa [dictSet] using h
  | cons q rest ih =>
      by_cases hq : q.1 = k
      · simp only [dictSet, hq, beq_self_eq_true, if_true] at h
        rcases List.mem_cons.mp h with h | h
        · exact Or.inl h
        · exact Or.inr (List.mem_cons_of_mem _ h)
      · simp only [dictSet, show (q.1 == k) = false by simp [hq], if_false] at h
        rcases List.mem_cons.mp h with h | h
        · exact Or.inr (h ▸ List.mem_cons_self _ _)
        · rcases ih h with h | h
          · exact Or.inl h
          · exact Or.inr (List.mem_cons_of_mem _ h)

theorem mem_dictErase (d : List (String × α)) (k : String) (p : String × α)
    (h : p ∈ dictErase d k) : p ∈ d := by
  induction d with
  | nil => simp [dictErase] at h
  | cons q rest ih =>
      by_cases hq : q.1 = k
      · simp only [dictErase, hq, beq_self_eq_true, if_true] at h
        exact List.mem_cons_of_mem _ (ih h)
      · simp only [dictErase, show (q.1 == k) = false by simp [hq], if_false] at h
        rcases List.mem_cons.mp h with h | h
        · exact h ▸ List.mem_cons_self _ _
        · exact List.mem_cons_of_mem _ (ih h)

theorem dictSet_of_find_none (d : List (String × α)) (k : String) (v : α)
    (h : dictFind d k = none) : dictSet d k v = d ++ [(k, v)] := by
  induction d with
  | nil => simp [dictSet]
  | cons p rest ih =>
      by_cases hp : p.1 = k
      · simp [dictFind, hp] at h
      · simp [dictFind, hp] at h
        simp [dictSet, hp, ih h]

theorem dictFind_some_mem (d : List (String × α)) (k : String) (v : α)
    (h : dictFind d k = some v) : (k, v) ∈ d := by
  induction d with
  | nil => simp [dictFind] at h
  | cons p rest ih =>
      by_cases hp : p.1 = k
      · simp [dictFind, hp] at h
        exact List.mem_cons.mpr (Or.inl (Prod.ext hp.symm h.symm))
      · simp [dictFind, hp] at h
        exact List.mem_cons_of_mem _ (ih h)

theorem dictFind_append_ne (d : List (String × α)) (k k' : String) (v : α)
    (h : k' ≠ k) : dictFind (d ++ [(k, v)]) k' = dictFind d k' := by
  have h' : ¬ k = k' := fun hh => h hh.symm
  induction d with
  | nil => simp [dictFind, h']
  | cons p rest ih =>
      by_cases hp : p.1 = k'
      · simp [dictFind, hp]
      · simp [dictFind, hp, ih]

/-! Claim theorems. -/

/-- C8: `add_book` with a fresh title appends a record carrying exactly the
supplied title, author, genre and quantity with `issued_count = 0`; with an
existing title it only adds the supplied quantity to the stored record's
quantity, leaving its author, genre and `issued_count` unchanged; in both
cases every other book, the users and the transaction log are untouched (the
method returns the new state unconditionally — it has no error path). -/
theorem add_book_spec (lib : Library) (title author genre : String)
    (quantity : Int) (hq : 0 ≤ quantity) :
    (dictFind lib.books title = none →
        (add_book lib title author genre quantity).books
          = lib.books ++ [(title, ⟨title, author, genre, quantity, 0⟩)]) ∧
    (∀ b, dictFind lib.books title = some b →
        dictFind (add_book lib title author genre quantity).books title
          = some ⟨b.title, b.author, b.genre, b.quantity + quantity, b.issued_count⟩) ∧
    (∀ t, t ≠ title →
        dictFind (add_book lib title author genre quantity).books t
          = dictFind lib.books t) ∧
    (add_book lib title author genre quantity).users = lib.users ∧
    (add_book lib title author genre quantity).transactions = lib.transactions := by
  refine ⟨?_, ?_, ?_, ?_, ?_⟩
  · intro h
    simp [add_book, h, dictSet_of_find_none _ _ _ h]
  · intro b hb
    have := dictFind_dictSet_self lib.books title
      (⟨b.title, b.author, b.genre, b.quantity + quantity, b.issued_count⟩ : Book)
    simpa [add_book, hb] using this
  · intro t ht
    cases hfind : dictFind lib.books title <;>
      simp [add_book, hfind, dictFind_dictSet_ne _ _ _ _ ht]
  · cases hfind : dictFind lib.books title <;> simp [add_book, hfind]
  · cases hfind : dictFind lib.books title <;> simp [add_book, hfind]

/-- Concrete run of C8: adding "Dune" twice. -/
theorem add_book_spec_witness :
    (add_book emptyLibrary "Dune" "Frank Herbert" "SF" 3).books
        = [("Dune", ⟨"Dune", "Frank Herbert", "SF", 3, 0⟩)] ∧
    dictFind (add_book (add_book emptyLibrary "Dune" "Frank Herbert" "SF" 3)
        "Dune" "Other" "Fantasy" 2).books "Dune"
        = some ⟨"Dune", "Frank Herbert", "SF", 5, 0⟩ := by
  constructor
  · have h := (add_book_spec emptyLibrary "Dune" "Frank Herbert" "SF" 3
      (by decide)).1 (by rfl)
    simpa using h
  · have h := (add_book_spec (add_book emptyLibrary "Dune" "Frank Herbert" "SF" 3)
      "Dune" "Other" "Fantasy" 2 (by decide)).2.1
      ⟨"Dune", "Frank Herbert", "SF", 3, 0⟩ (by rfl)
    simpa using h

/-- C9: loading from a missing destination is not an error: the call returns
the `false` signal and the store — books, users and transactions — is exactly
what it was before the call. -/
theorem load_missing_file (lib : Library) (ts : String) :
    load_from_file lib none ts = (lib, false) := rfl

/-- C2: `issue_book` checks its preconditions in order (user, then book,
then quantity), first failure wins; each failure is a returned result value
carrying `false` and a message, and the entire store is returned exactly
unchanged. -/
theorem issue_book_failures (lib : Library) (user_id title : String)
    (now : Nat) (ts : String) :
    (dictFind lib.users user_id = none →
        issue_book lib user_id title now ts = (lib, false, "User not found")) ∧
    (∀ user, dictFind lib.users user_id = some user →
        dictFind lib.books title = none →
        issue_book lib user_id title now ts = (lib, false, "Book not found")) ∧
    (∀ user book, dictFind lib.users user_id = some user →
        dictFind lib.books title = some book → book.quantity ≤ 0 →
        issue_book lib user_id title now ts
          = (lib, false, "No copies available")) := by
  refine ⟨?_, ?_, ?_⟩
  · intro h
    simp [issue_book, h]
  · intro user hu hb
    simp [issue_book, hu, hb]
  · intro user book hu hb hq
    simp [issue_book, hu, hb, hq]

/-- Concrete runs of C2: the three failure cases, first failure winning. -/
theorem issue_book_failures_witness :
    issue_book emptyLibrary "u1" "Dune" 0 "T"
        = (emptyLibrary, false, "User not found") ∧
    issue_book sampleUserLib "u1" "Dune" 0 "T"
        = (sampleUserLib, false, "Book not found") ∧
    issue_book sampleLibZero "u1" "Dune" 0 "T"
        = (sampleLibZero, false, "No copies available") := by
  refine ⟨?_, ?_, ?_⟩
  · exact (issue_book_failures emptyLibrary "u1" "Dune" 0 "T").1 (by rfl)
  · exact (issue_book_failures sampleUserLib "u1" "Dune" 0 "T").2.1
      ⟨"u1", "Ann", "ann@mail", []⟩ (by rfl) (by rfl)
  · exact (issue_book_failures sampleLibZero "u1" "Dune" 0 "T").2.2
      ⟨"u1", "Ann", "ann@mail", []⟩ ⟨"Dune", "Frank Herbert", "SF", 0, 0⟩
      (by rfl) (by rfl) (by decide)

/-- C1: whenever the user exists, the book exists and its quantity is
positive (no condition on whether the user already holds the title), the
issue succeeds with a message containing the due date; the user's borrowed
map gets `title ↦ isoOfDays (now + 14)` — the ISO date 14 days ahead —
overwriting any prior entry, the book's quantity drops by exactly 1 and its
`issued_count` rises by exactly 1, exactly one `issue` transaction for the
pair is appended at the end of the log, and every other book and user is
unchanged. -/
theorem issue_book_success (lib : Library) (user_id title : String)
    (now : Nat) (ts : String) (user : User) (book : Book)
    (hu : dictFind lib.users user_id = some user)
    (hb : dictFind lib.books title = some book)
    (hq : 0 < book.quantity) :
    (issue_book lib user_id title now ts).2.1 = true ∧
    (issue_book lib user_id title now ts).2.2
        = "Issued. Due: " ++ isoOfDays (now + 14) ∧
    dictFind (issue_book lib user_id title now ts).1.users user_id
        = some { user with
                 borrowed := dictSet user.borrowed title (isoOfDays (now + 14)) } ∧
    dictFind (issue_book lib user_id title now ts).1.books title
        = some { book with quantity := book.quantity - 1,
                           issued_count := book.issued_count + 1 } ∧
    (∀ t, t ≠ title →
        dictFind (issue_book lib user_id title now ts).1.books t
          = dictFind lib.books t) ∧
    (∀ u, u ≠ user_id →
        dictFind (issue_book lib user_id title now ts).1.users u
          = dictFind lib.users u) ∧
    (issue_book lib user_id title now ts).1.transactions
        = lib.transactions ++ [⟨user_id, title, "issue", ts⟩] := by
  have hq' : ¬ book.quantity ≤ 0 := not_le.mpr hq
  refine ⟨?_, ?_, ?_, ?_, ?_, ?_, ?_⟩
  · simp [issue_book, hu, hb, hq']
  · simp [issue_book, hu, hb, hq']
  · simp [issue_book, hu, hb, hq', dictFind_dictSet_self]
  · simp [issue_book, hu, hb, hq', dictFind_dictSet_self]
  · intro t ht
    simp [issue_book, hu, hb, hq', dictFind_dictSet_ne _ _ _ _ ht]
  · intro u huu
    simp [issue_book, hu, hb, hq', dictFind_dictSet_ne _ _ _ _ huu]
  · simp [issue_book, hu, hb, hq']

/-- Concrete run of C1: issuing the single copy of "Dune" on day 740191
(2026-09-27) produces the due date 2026-10-11 and the expected state. -/
theorem issue_book_success_witness :
    dictFind (issue_book sampleLib "u1" "Dune" 740191 "T").1.books "Dune"
        = some ⟨"Dune", "Frank Herbert", "SF", 0, 1⟩ ∧
    dictFind (issue_book sampleLib "u1" "Dune" 740191 "T").1.users "u1"
        = some ⟨"u1", "Ann", "ann@mail", [("Dune", "2026-10-11")]⟩ ∧
    (issue_book sampleLib "u1" "Dune" 740191 "T").2.2
        = "Issued. Due: 2026-10-11" := by
  have h := issue_book_success sampleLib "u1" "Dune" 740191 "T"
    ⟨"u1", "Ann", "ann@mail", []⟩ ⟨"Dune", "Frank Herbert", "SF", 1, 0⟩
    (by rfl) (by rfl) (by decide)
  refine ⟨?_, ?_, ?_⟩
  · have hb := h.2.2.2.1
    rw [hb]; rfl
  · have hu := h.2.2.1
    rw [hu]
    have hdue : isoOfDays (740191 + 14) = "2026-10-11" := by decide
    simp [dictSet, hdue]
  · have hm := h.2.1
    rw [hm]
    have hdue : isoOfDays (740191 + 14) = "2026-10-11" := by decide
    rw [hdue]
    rfl

/-- C3: `return_book` fails with the user-not-found message when the user id
is unknown and with the not-borrowed message when the title is absent from
that user's borrowed map, in both cases returning the store exactly
unchanged; when both preconditions hold it succeeds, removes the borrowed
entry, increments the catalog record's quantity by exactly 1 (leaving its
`issued_count` and every other field unchanged) when the title is still in
the catalog, recreates the record as `⟨title, "Unknown", "Unknown", 1, 0⟩`
appended at the end when it is not, appends exactly one `return` transaction
at the end of the log, and changes no other book or user. -/
theorem return_book_spec (lib : Library) (user_id title : String) (ts : String) :
    (dictFind lib.users user_id = none →
        return_book lib user_id title ts = (lib, false, "User not found")) ∧
    (∀ user, dictFind lib.users user_id = some user →
        dictFind user.borrowed title = none →
        return_book lib user_id title ts
          = (lib, false, "User did not borrow this book")) ∧
    (∀ user due, dictFind lib.users user_id = some user →
        dictFind user.borrowed title = some due →
        (return_book lib user_id title ts).2.1 = true ∧
        dictFind (return_book lib user_id title ts).1.users user_id
            = some { user with borrowed := dictErase user.borrowed title } ∧
        (∀ b, dictFind lib.books title = some b →
            dictFind (return_book lib user_id title ts).1.books title
              = some { b with quantity := b.quantity + 1 }) ∧
        (dictFind lib.books title = none →
            (return_book lib user_id title ts).1.books
              = lib.books ++ [(title, ⟨title, "Unknown", "Unknown", 1, 0⟩)]) ∧
        (∀ t, t ≠ title →
            dictFind (return_book lib user_id title ts).1.books t
              = dictFind lib.books t) ∧
        (∀ u, u ≠ user_id →
            dictFind (return_book lib user_id title ts).1.users u
              = dictFind lib.users u) ∧
        (return_book lib user_id title ts).1.transactions
            = lib.transactions ++ [⟨user_id, title, "return", ts⟩]) := by
  refine ⟨?_, ?_, ?_⟩
  · intro h
    simp [return_book, h]
  · intro user hu hbor
    have hc : dictContains user.borrowed title = false := by
      rw [dictContains_eq_isSome, hbor]; rfl
    simp [return_book, hu, hc]
  · intro user due hu hbor
    have hc : dictContains user.borrowed title = true := by
      rw [dictContains_eq_isSome, hbor]; rfl
    refine ⟨?_, ?_, ?_, ?_, ?_, ?_, ?_⟩
    · simp [return_book, hu, hc]
    · simp [return_book, hu, hc, dictFind_dictSet_self]
    · intro b hb
      simp [return_book, hu, hc, hb, dictFind_dictSet_self]
    · intro hb
      simp [return_book, hu, hc, hb, dictSet_of_find_none _ _ _ hb]
    · intro t ht
      cases hb : dictFind lib.books title <;>
        simp [return_book, hu, hc, hb, dictFind_dictSet_ne _ _ _ _ ht]
    · intro u huu
      cases hb : dictFind lib.books title <;>
        simp [return_book, hu, hc, hb, dictFind_dictSet_ne _ _ _ _ huu]
    · cases hb : dictFind lib.books title <;> simp [return_book, hu, hc, hb]

/-- Concrete runs of C3: the two failures and a successful return of the
outstanding "Dune" loan. -/
theorem return_book_spec_witness :
    return_book emptyLibrary "u1" "Dune" "T"
        = (emptyLibrary, false, "User not found") ∧
    return_book sampleUserLib "u1" "Dune" "T"
        = (sampleUserLib, false, "User did not borrow this book") ∧
    dictFind (return_book sampleBorrowedLib "u1" "Dune" "T").1.books "Dune"
        = some ⟨"Dune", "Frank Herbert", "SF", 1, 1⟩ ∧
    dictFind (return_book sampleBorrowedLib "u1" "Dune" "T").1.users "u1"
        = some ⟨"u1", "Ann", "ann@mail", [("Emma", "2026-10-20")]⟩ := by
  have hfail₁ := (return_book_spec emptyLibrary "u1" "Dune" "T").1 (by rfl)
  have hfail₂ := (return_book_spec sampleUserLib "u1" "Dune" "T").2.1
    ⟨"u1", "Ann", "ann@mail", []⟩ (by rfl) (by rfl)
  have hok := (return_book_spec sampleBorrowedLib "u1" "Dune" "T").2.2
    ⟨"u1", "Ann", "ann@mail", [("Dune", "2026-10-01"), ("Emma", "2026-10-20")]⟩
    "2026-10-01" (by rfl) (by rfl)
  refine ⟨hfail₁, hfail₂, ?_, ?_⟩
  · have hb := hok.2.2.1 ⟨"Dune", "Frank Herbert", "SF", 0, 1⟩ (by rfl)
    rw [hb]; rfl
  · have hu := hok.2.1
    rw [hu]; rfl

theorem bookDict_roundtrip_map (l : List (String × Book)) :
    (l.map fun p => (p.1, bookToDict p.2)).map (fun p => (p.1, bookFromDict p.2))
      = l := by
  rw [List.map_map]
  have hid : ((fun p => (p.1, bookFromDict p.2)) ∘
      fun p : String × Book => (p.1, bookToDict p.2)) = id := by
    funext p; rfl
  rw [hid, List.map_id]

theorem userDict_roundtrip_map (l : List (String × User)) :
    (l.map fun p => (p.1, userToDict p.2)).map (fun p => (p.1, userFromDict p.2))
      = l := by
  rw [List.map_map]
  have hid : ((fun p => (p.1, userFromDict p.2)) ∘
      fun p : String × User => (p.1, userToDict p.2)) = id := by
    funext p; rfl
  rw [hid, List.map_id]

/-- C4 counterexample: the round trip is not exact for every state.  A
transaction whose stored date is the empty string is serialized as such, but
on load `Transaction.__init__`'s `date or datetime.utcnow().isoformat()`
(line 62) treats the empty string as falsy and replaces it with the current
timestamp, so the reloaded store differs from the saved one. -/
theorem save_load_not_roundtrip :
    (load_from_file emptyLibrary (some (save_to_file libEmptyDate))
        "2026-10-12T00:00:00").1 ≠ libEmptyDate := by
  decide

/-- C4 (amended): for every store in which each transaction's date is a
non-empty string — true of every timestamp the program itself records —
saving and then loading yields a store whose books, users and transactions
are field-for-field equal to the saved state, with key order, borrowed
entries and transaction order preserved. -/
theorem save_load_roundtrip (lib target : Library) (ts : String)
    (h : ∀ tr ∈ lib.transactions, tr.date ≠ "") :
    load_from_file target (some (save_to_file lib)) ts = (lib, true) := by
  have htrans : ∀ l : List Transaction, (∀ tr ∈ l, tr.date ≠ "") →
      (l.map transactionToDict).map (transactionFromDict ts) = l := by
    intro l
    induction l with
    | nil => intro _; rfl
    | cons tr rest ih =>
        intro hl
        have hd : tr.date ≠ "" := hl tr (List.mem_cons_self _ _)
        have hrest := ih fun tr' htr' => hl tr' (List.mem_cons_of_mem _ htr')
        simp only [List.map_cons, hrest]
        congr 1
        simp [transactionFromDict, transactionToDict, hd]
  unfold load_from_file save_to_file
  refine Prod.ext ?_ rfl
  show Library.mk _ _ _ = lib
  cases lib with
  | mk books users transactions =>
      simp only [bookDict_roundtrip_map, userDict_roundtrip_map,
        htrans transactions (by simpa using h)]

/-- Concrete run of C4 (amended): a full round trip of a store with a book,
a user holding two loans, and one transaction with a real timestamp. -/
theorem save_load_roundtrip_witness :
    load_from_file emptyLibrary (some (save_to_file sampleBorrowedLib))
        "2026-10-12T00:00:00" = (sampleBorrowedLib, true) :=
  save_load_roundtrip sampleBorrowedLib emptyLibrary "2026-10-12T00:00:00"
    (by decide)

theorem booksNonNeg_applyOp (lib : Library) (op : Op) (hq : opQuantityNN op)
    (h : booksNonNeg lib) : booksNonNeg (applyOp lib op) := by
  cases op with
  | addBook title author genre q =>
      have hq' : (0 : Int) ≤ q := hq
      intro p hp
      cases hfind : dictFind lib.books title with
      | none =>
          simp only [applyOp, add_book, hfind] at hp
          rcases mem_dictSet _ _ _ _ hp with hp | hp
          · subst hp; exact hq'
          · exact h p hp
      | some b =>
          have hb : (0 : Int) ≤ b.quantity := h _ (dictFind_some_mem _ _ _ hfind)
          simp only [applyOp, add_book, hfind] at hp
          rcases mem_dictSet _ _ _ _ hp with hp | hp
          · subst hp; exact add_nonneg hb hq'
          · exact h p hp
  | removeBook title =>
      intro p hp
      by_cases hc : dictContains lib.books title
      · simp only [applyOp, remove_book, hc, if_true] at hp
        exact h p (mem_dictErase _ _ _ hp)
      · simp only [applyOp, remove_book, hc, if_false] at hp
        exact h p hp
  | addUser uid name contact =>
      intro p hp
      exact h p hp
  | removeUser uid =>
      intro p hp
      by_cases hc : dictContains lib.users uid
      · simp only [applyOp, remove_user, hc, if_true] at hp
        exact h p hp
      · simp only [applyOp, remove_user, hc, if_false] at hp
        exact h p hp
  | issueBook uid title now ts =>
      intro p hp
      cases hu : dictFind lib.users uid with
      | none =>
          simp only [applyOp, issue_book, hu] at hp
          exact h p hp
      | some user =>
          cases hb : dictFind lib.books title with
          | none =>
              simp only [applyOp, issue_book, hu, hb] at hp
              exact h p hp
          | some book =>
              by_cases hqty : book.quantity ≤ 0
              · simp only [applyOp, issue_book, hu, hb, hqty, if_true] at hp
                exact h p hp
              · have hbq : (0 : Int) ≤ book.quantity - 1 := by
                  have := not_le.mp hqty
                  omega
                simp only [applyOp, issue_book, hu, hb, hqty, if_false] at hp
                rcases mem_dictSet _ _ _ _ hp with hp | hp
                · subst hp; exact hbq
                · exact h p hp
  | returnBook uid title ts =>
      intro p hp
      cases hu : dictFind lib.users uid with
      | none =>
          simp only [applyOp, return_book, hu] at hp
          exact h p hp
      | some user =>
          by_cases hc : dictContains user.borrowed title
          · cases hb : dictFind lib.books title with
            | none =>
                simp only [applyOp, return_book, hu, hc, hb, if_true] at hp
                rcases mem_dictSet _ _ _ _ hp with hp | hp
                · subst hp
                  show (0 : Int) ≤ 1
                  norm_num
                · exact h p hp
            | some b =>
                have hbq : (0 : Int) ≤ b.quantity :=
                  h _ (dictFind_some_mem _ _ _ hb)
                simp only [applyOp, return_book, hu, hc, hb, if_true] at hp
                rcases mem_dictSet _ _ _ _ hp with hp | hp
                · subst hp
                  simp only []
                  omega
                · exact h p hp
          · simp only [applyOp, return_book, hu, hc, if_false] at hp
            exact h p hp

/-- C5: in every state reachable from the empty store by any sequence of the
six mutating operations in which each `addBook` call supplies a non-negative
quantity, every catalog record's quantity is a non-negative integer — no
operation ever drives a quantity below zero (`issue_book` refuses when the
quantity is not strictly positive). -/
theorem quantity_never_negative (lib : Library) (h : ReachNN lib) :
    booksNonNeg lib := by
  induction h with
  | empty =>
      intro p hp
      simp [emptyLibrary] at hp
  | step op hq _ ih => exact booksNonNeg_applyOp _ op hq ih

/-- Concrete run of C5: the invariant on a reachable two-operation state. -/
theorem quantity_never_negative_witness : booksNonNeg sampleLib := by
  have h1 : ReachNN sampleUserLib :=
    ReachNN.step (Op.addUser "u1" "Ann" "ann@mail") trivial ReachNN.empty
  have h2 : ReachNN sampleLib :=
    ReachNN.step (Op.addBook "Dune" "Frank Herbert" "SF" 1)
      (by show (0 : Int) ≤ 1; norm_num) h1
  exact quantity_never_negative sampleLib h2

theorem keyCoherent_applyOp (lib : Library) (op : Op) (h : keyCoherent lib) :
    keyCoherent (applyOp lib op) := by
  obtain ⟨hbk, hus⟩ := h
  cases op with
  | addBook title author genre q =>
      cases hfind : dictFind lib.books title with
      | none =>
          refine ⟨?_, ?_⟩ <;> intro p hp <;>
            simp only [applyOp, add_book, hfind] at hp
          · rcases mem_dictSet _ _ _ _ hp with hp | hp
            · subst hp; rfl
            · exact hbk p hp
          · exact hus p hp
      | some b =>
          have hbt : b.title = title := hbk _ (dictFind_some_mem _ _ _ hfind)
          refine ⟨?_, ?_⟩ <;> intro p hp <;>
            simp only [applyOp, add_book, hfind] at hp
          · rcases mem_dictSet _ _ _ _ hp with hp | hp
            · subst hp; exact hbt
            · exact hbk p hp
          · exact hus p hp
  | removeBook title =>
      by_cases hc : dictContains lib.books title <;>
        refine ⟨?_, ?_⟩ <;> intro p hp <;>
          simp only [applyOp, remove_book, hc, if_true, if_false] at hp
      · exact hbk p (mem_dictErase _ _ _ hp)
      · exact hus p hp
      · exact hbk p hp
      · exact hus p hp
  | addUser uid name contact =>
      refine ⟨?_, ?_⟩ <;> intro p hp <;>
        simp only [applyOp, add_user] at hp
      · exact hbk p hp
      · rcases mem_dictSet _ _ _ _ hp with hp | hp
        · subst hp; rfl
        · exact hus p hp
  | removeUser uid =>
      by_cases hc : dictContains lib.users uid <;>
        refine ⟨?_, ?_⟩ <;> intro p hp <;>
          simp only [applyOp, remove_user, hc, if_true, if_false] at hp
      · exact hbk p hp
      · exact hus p (mem_dictErase _ _ _ hp)
      · exact hbk p hp
      · exact hus p hp
  | issueBook uid title now ts =>
      cases hu : dictFind lib.users uid with
      | none =>
          refine ⟨?_, ?_⟩ <;> intro p hp <;>
            simp only [applyOp, issue_book, hu] at hp
          · exact hbk p hp
          · exact hus p hp
      | some user =>
          have hui : user.id = uid := hus _ (dictFind_some_mem _ _ _ hu)
          cases hb : dictFind lib.books title with
          | none =>
              refine ⟨?_, ?_⟩ <;> intro p hp <;>
                simp only [applyOp, issue_book, hu, hb] at hp
              · exact hbk p hp
              · exact hus p hp
          | some book =>
              have hbt : book.title = title := hbk _ (dictFind_some_mem _ _ _ hb)
              by_cases hqty : book.quantity ≤ 0
              · refine ⟨?_, ?_⟩ <;> intro p hp <;>
                  simp only [applyOp, issue_book, hu, hb, hqty, if_true] at hp
                · exact hbk p hp
                · exact hus p hp
              · refine ⟨?_, ?_⟩ <;> intro p hp <;>
                  simp only [applyOp, issue_book, hu, hb, hqty, if_false] at hp
                · rcases mem_dictSet _ _ _ _ hp with hp | hp
                  · subst hp; exact hbt
                  · exact hbk p hp
                · rcases mem_dictSet _ _ _ _ hp with hp | hp
                  · subst hp; exact hui
                  · exact hus p hp
  | returnBook uid title ts =>
      cases hu : dictFind lib.users uid with
      | none =>
          refine ⟨?_, ?_⟩ <;> intro p hp <;>
            simp only [applyOp, return_book, hu] at hp
          · exact hbk p hp
          · exact hus p hp
      | some user =>
          have hui : user.id = uid := hus _ (dictFind_some_mem _ _ _ hu)
          by_cases hc : dictContains user.borrowed title
          · cases hb : dictFind lib.books title with
            | none =>
                refine ⟨?_, ?_⟩ <;> intro p hp <;>
                  simp only [applyOp, return_book, hu, hc, hb, if_true] at hp
                · rcases mem_dictSet _ _ _ _ hp with hp | hp
                  · subst hp; rfl
                  · exact hbk p hp
                · rcases mem_dictSet _ _ _ _ hp with hp | hp
                  · subst hp; exact hui
                  · exact hus p hp
            | some b =>
                have hbt : b.title = title := hbk _ (dictFind_some_mem _ _ _ hb)
                refine ⟨?_, ?_⟩ <;> intro p hp <;>
                  simp only [applyOp, return_book, hu, hc, hb, if_true] at hp
                · rcases mem_dictSet _ _ _ _ hp with hp | hp
                  · subst hp; exact hbt
                  · exact hbk p hp
                · rcases mem_dictSet _ _ _ _ hp with hp | hp
                  · subst hp; exact hui
                  · exact hus p hp
          · refine ⟨?_, ?_⟩ <;> intro p hp <;>
              simp only [applyOp, return_book, hu, hc, if_false] at hp
            · exact hbk p hp
            · exact hus p hp

/-- C10: in every state reachable from the empty store by the six mutating
operations and by loading files previously produced by `save_to_file` on
reachable states, `books` maps each key to a record whose `title` field
equals that key and `users` maps each key to a record whose `id` field
equals it. -/
theorem key_coherence (lib : Library) (h : Reach lib) : keyCoherent lib := by
  induction h with
  | empty =>
      exact ⟨fun p hp => by simp [emptyLibrary] at hp,
             fun p hp => by simp [emptyLibrary] at hp⟩
  | step op _ ih => exact keyCoherent_applyOp _ op ih
  | load ts _ _ ih ih₂ =>
      obtain ⟨hbk₂, hus₂⟩ := ih₂
      constructor
      · intro p hp
        simp only [load_from_file, save_to_file, bookDict_roundtrip_map] at hp
        exact hbk₂ p hp
      · intro p hp
        simp only [load_from_file, save_to_file, userDict_roundtrip_map] at hp
        exact hus₂ p hp

/-- Concrete run of C10: coherence of a state reached through a save-load
round trip of a two-operation store. -/
theorem key_coherence_witness :
    keyCoherent (load_from_file emptyLibrary (some (save_to_file sampleLib))
      "2026-10-12T00:00:00").1 := by
  have h1 : Reach sampleUserLib :=
    Reach.step (Op.addUser "u1" "Ann" "ann@mail") Reach.empty
  have h2 : Reach sampleLib :=
    Reach.step (Op.addBook "Dune" "Frank Herbert" "SF" 1) h1
  exact key_coherence _ (Reach.load "2026-10-12T00:00:00" Reach.empty h2)

theorem userOverdue_eq (today : Nat) (u : User) (l : List (String × String))
    (h : ∀ e ∈ l, (parseIsoDays e.2).isSome) :
    userOverdue today u l
      = some ((l.filter fun e =>
            match parseIsoDays e.2 with
            | some dueDate => decide (dueDate < today)
            | none => false).map fun e => ⟨u.id, u.name, e.1, e.2⟩) := by
  induction l with
  | nil => rfl
  | cons e rest ih =>
      obtain ⟨dd, hdd⟩ :=
        Option.isSome_iff_exists.mp (h e (List.mem_cons_self _ _))
      have hrest := ih fun e' he' => h e' (List.mem_cons_of_mem _ he')
      cases e with
      | mk t due =>
          by_cases hlt : dd < today
          · simp [userOverdue, hdd, hrest, List.filter_cons, hlt]
          · simp [userOverdue, hdd, hrest, List.filter_cons, hlt]

theorem allOverdue_eq (today : Nat) (users : List (String × User))
    (h : ∀ p ∈ users, ∀ e ∈ p.2.borrowed, (parseIsoDays e.2).isSome) :
    allOverdue today users
      = some (users.flatMap fun p =>
          (p.2.borrowed.filter fun e =>
              match parseIsoDays e.2 with
              | some dueDate => decide (dueDate < today)
              | none => false).map fun e => ⟨p.2.id, p.2.name, e.1, e.2⟩) := by
  induction users with
  | nil => rfl
  | cons p rest ih =>
      have h1 := userOverdue_eq today p.2 p.2.borrowed
        (h p (List.mem_cons_self _ _))
      have hrest := ih fun q hq => h q (List.mem_cons_of_mem _ hq)
      cases p with
      | mk k u => simp [allOverdue, h1, hrest, List.flatMap_cons]

/-- C6: whenever every stored due date parses (true of every state the
program itself produces), the report exists and its overdue list is exactly
the spec's comprehension `overdueSpec`: an entry per (user, title, due)
whose due date is strictly before today — a due date equal to today is not
overdue — in iteration order over users and then over that user's borrowed
entries, with no additional sorting. -/
theorem report_overdue (lib : Library) (today : Nat)
    (h : ∀ p ∈ lib.users, ∀ e ∈ p.2.borrowed, (parseIsoDays e.2).isSome) :
    ∃ r, generate_report lib today = some r ∧
      r.overdue = overdueSpec lib today := by
  rw [generate_report, allOverdue_eq today lib.users h]
  exact ⟨_, rfl, rfl⟩

/-- Concrete run of C6: on 2026-10-12, the loan due 2026-10-01 is overdue
and the loan due 2026-10-20 is not. -/
theorem report_overdue_witness :
    ∃ r, generate_report sampleBorrowedLib (daysFromCivil 2026 10 12) = some r ∧
      r.overdue = overdueSpec sampleBorrowedLib (daysFromCivil 2026 10 12) :=
  report_overdue sampleBorrowedLib (daysFromCivil 2026 10 12) (by decide)

theorem insertPop_perm (b : Book) (l : List Book) :
    (insertPop b l).Perm (b :: l) := by
  induction l with
  | nil => exact List.Perm.refl _
  | cons c rest ih =>
      by_cases hc : c.issued_count ≤ b.issued_count
      · simp [insertPop, hc]
      · simp only [insertPop, hc, if_false]
        exact (ih.cons c).trans (List.Perm.swap b c rest)

theorem sortPop_perm (l : List Book) : (sortPop l).Perm l := by
  induction l with
  | nil => exact List.Perm.refl _
  | cons b rest ih =>
      exact (insertPop_perm b (sortPop rest)).trans (ih.cons b)

theorem mem_insertPop (b x : Book) (l : List Book) (h : x ∈ insertPop b l) :
    x = b ∨ x ∈ l := by
  have := (insertPop_perm b l).mem_iff.mp h
  simpa using this

theorem insertPop_sorted (b : Book) (l : List Book) (h : l.Sorted popGE) :
    (insertPop b l).Sorted popGE := by
  induction l with
  | nil => simp [insertPop, List.Sorted]
  | cons c rest ih =>
      obtain ⟨hc, hrest⟩ := List.pairwise_cons.mp h
      by_cases hcb : c.issued_count ≤ b.issued_count
      · simp only [insertPop, hcb, if_true]
        refine List.pairwise_cons.mpr ⟨?_, h⟩
        intro x hx
        rcases List.mem_cons.mp hx with hx | hx
        · subst hx; exact hcb
        · exact le_trans (hc x hx) hcb
      · simp only [insertPop, hcb, if_false]
        refine List.pairwise_cons.mpr ⟨?_, ih hrest⟩
        intro x hx
        rcases mem_insertPop b x _ hx with hx | hx
        · subst hx; exact le_of_not_le hcb
        · exact hc x hx

theorem sortPop_sorted (l : List Book) : (sortPop l).Sorted popGE := by
  induction l with
  | nil => simp [sortPop, List.Sorted]
  | cons b rest ih => exact insertPop_sorted b (sortPop rest) ih

theorem filter_insertPop (b : Book) (l : List Book) (n : Int) :
    (insertPop b l).filter (fun c => c.issued_count == n)
      = if b.issued_count = n then
          b :: l.filter (fun c => c.issued_count == n)
        else
          l.filter (fun c => c.issued_count == n) := by
  induction l with
  | nil =>
      by_cases hb : b.issued_count = n
      · simp [insertPop, List.filter_cons, hb]
      · simp [insertPop, List.filter_cons, hb]
  | cons c rest ih =>
      by_cases hcb : c.issued_count ≤ b.issued_count
      · simp only [insertPop, if_pos hcb]
        by_cases hb : b.issued_count = n <;>
          simp [List.filter_cons, hb]
      · simp only [insertPop, if_neg hcb, List.filter_cons, ih]
        have hlt : b.issued_count < c.issued_count := lt_of_not_le hcb
        by_cases hb : b.issued_count = n
        · have hcn : ¬ c.issued_count = n := by
            intro hcn
            rw [hcn, ← hb] at hlt
            exact lt_irrefl _ hlt
          simp [List.filter_cons, hb, hcn]
        · by_cases hcn : c.issued_count = n <;>
            simp [List.filter_cons, hb, hcn]

theorem sortPop_filter (l : List Book) (n : Int) :
    (sortPop l).filter (fun c => c.issued_count == n)
      = l.filter (fun c => c.issued_count == n) := by
  induction l with
  | nil => rfl
  | cons b rest ih =>
      by_cases hb : b.issued_count = n
      · simp [sortPop, filter_insertPop, hb, List.filter_cons, ih]
      · simp [sortPop, filter_insertPop, hb, List.filter_cons, ih]

/-- C7: the report's popular list has at most 10 entries; it is sorted by
`issued_count` in descending order; when the catalog has at most 10 books
every book appears in it; and the descending sort is stable: for every
count value, the popular entries with that `issued_count` form a prefix of
the catalog's records with that count taken in original catalog order. -/
theorem report_popular (lib : Library) (today : Nat) (r : Report)
    (h : generate_report lib today = some r) :
    r.popular.length ≤ 10 ∧
    r.popular.Sorted popGE ∧
    (lib.books.length ≤ 10 →
        ∀ b ∈ lib.books.map (fun p => p.2), b ∈ r.popular) ∧
    (∀ n : Int, r.popular.filter (fun b => b.issued_count == n)
        <+: (lib.books.map (fun p => p.2)).filter
              (fun b => b.issued_count == n)) := by
  have hpop : r.popular = (sortPop (lib.books.map (fun p => p.2))).take 10 := by
    cases hov : allOverdue today lib.users with
    | none => rw [generate_report, hov] at h; cases h
    | some ov =>
        rw [generate_report, hov] at h
        cases h
        rfl
  rw [hpop]
  refine ⟨List.length_take_le _ _, ?_, ?_, ?_⟩
  · exact (sortPop_sorted _).sublist (List.take_sublist _ _)
  · intro hlen b hb
    have hslen : (sortPop (lib.books.map (fun p => p.2))).length ≤ 10 := by
      rw [(sortPop_perm _).length_eq, List.length_map]
      exact hlen
    rw [List.take_of_length_le hslen]
    exact (sortPop_perm _).mem_iff.mpr hb
  · intro n
    have hpre := ( List.take_prefix 10
      (sortPop (lib.books.map (fun p => p.2)))).filter
      (fun b => b.issued_count == n)
    rw [sortPop_filter] at hpre
    exact hpre

/-- Concrete run of C7 on a twelve-book catalog with ties. -/
theorem report_popular_witness :
    ∃ r, generate_report twelveBookLib 0 = some r ∧
      r.popular.length ≤ 10 ∧ r.popular.Sorted popGE := by
  refine ⟨_, rfl, ?_, ?_⟩
  · exact (report_popular twelveBookLib 0 _ rfl).1
  · exact (report_popular twelveBookLib 0 _ rfl).2.1

end LibraryManager
